import Mathlib

/-!
Shallow embedding of the job-lifecycle core of `app.py` (YouTube MP3 downloader):
filename sanitization, history persistence, the PythonAnywhere policy gate,
the progress hook, the `download_audio` worker, and the admission-control
state of the `/download` route.  Side effects (filesystem, network, registry
writes) are made explicit as inputs and outputs of pure functions.
-/

namespace YtMp3

/-- Characters removed by `clean_filename` (the Python regex class in
`re.sub(r'[<>:"/\\|?*]', '', filename)`). -/
def illegalChars : List Char := ['<', '>', ':', '"', '/', '\\', '|', '?', '*']

/-- Whether a character is one of the characters `clean_filename` strips. -/
def isIllegal (c : Char) : Bool := illegalChars.contains c

/-- Python regex `\s` restricted to ASCII: space, tab, newline, carriage
return, vertical tab, form feed. -/
def isPySpace (c : Char) : Bool :=
  c == ' ' || c == '\t' || c == '\n' || c == '\r' || c == Char.ofNat 11 || c == Char.ofNat 12

/-- Model of `re.sub(r'\s+', ' ', s)`: every maximal run of whitespace
characters becomes a single space. -/
def collapseWS : List Char → List Char
  | [] => []
  | [c] => if isPySpace c then [' '] else [c]
  | c1 :: c2 :: rest =>
    if isPySpace c1 && isPySpace c2 then collapseWS (c2 :: rest)
    else (if isPySpace c1 then ' ' else c1) :: collapseWS (c2 :: rest)

/-- Model of Python `str.strip()` (drop leading and trailing whitespace). -/
def pyStrip (l : List Char) : List Char :=
  ((l.dropWhile isPySpace).reverse.dropWhile isPySpace).reverse

/-- Index of the last `'.'` in a character list, if any. -/
def lastIdxOfDot : List Char → Option Nat
  | [] => none
  | c :: rest =>
    match lastIdxOfDot rest with
    | some i => some (i + 1)
    | none => if c = '.' then some 0 else none

/-- Model of `os.path.splitext` on a separator-free filename: split at the
last dot, unless every character before it is itself a dot (CPython keeps
leading-dot names such as `.bashrc` whole). -/
def splitext (l : List Char) : List Char × List Char :=
  match lastIdxOfDot l with
  | none => (l, [])
  | some i => if (l.take i).any (fun c => c != '.') then (l.take i, l.drop i) else (l, [])

/-- The sanitization stage of `clean_filename`: remove illegal characters,
collapse whitespace, strip. -/
def sanitizePart (l : List Char) : List Char :=
  pyStrip (collapseWS (l.filter (fun c => !isIllegal c)))

/-- Model of `clean_filename` from `app.py`: sanitize, then when the result
is longer than 100 characters keep the first 95 characters of the stem and
reattach the extension. -/
def clean_filename (l : List Char) : List Char :=
  let f := sanitizePart l
  if f.length > 100 then
    let p := splitext f
    p.1.take 95 ++ p.2
  else f

/-- `clean_filename` lifted to `String` (as used on video titles). -/
def cleanFilenameStr (s : String) : String := ⟨clean_filename s.toList⟩

/-- One record of the persisted download history (`history.json`).  The
timestamp is abstracted away; the remaining fields mirror the dict built in
`save_to_history`. -/
structure HistoryEntry where
  url : String
  title : String
  filename : String
  sizeMB : ℚ
  outcome : String
deriving DecidableEq

/-- Model of `save_to_history`: append the new entry, then keep only the
last 100 entries (`history = history[-100:]`). -/
def save_to_history (history : List HistoryEntry) (e : HistoryEntry) : List HistoryEntry :=
  let h := history ++ [e]
  if h.length > 100 then h.drop (h.length - 100) else h

/-- A progress event dict as handed to `progress_hook` by the transfer
library.  `none` models an absent key (every read in the hook uses
`d.get(key, default)`). -/
structure Event where
  status : String
  percentStr : Option String
  downloadedBytes : Option Nat
  totalBytes : Option Nat
  speedStr : Option String
  etaStr : Option String
  filename : Option String
  title : Option String
deriving DecidableEq

/-- Structured stand-in for the human-readable `message` strings the worker
writes into the registry record (numeric formatting abstracted). -/
inductive PyMsg where
  | alreadyDownloaded (cleanTitle : String) (sizeMB : ℚ)
  | downloadedMsg (filename : String) (sizeMB : ℚ)
  | errText (text : String)
deriving DecidableEq

/-- The per-job registry record `download_progress[download_id]`. -/
structure ProgressRecord where
  status : String
  percent : String
  downloadedBytes : Nat
  totalBytes : Nat
  speed : String
  eta : String
  filename : String
  title : String
  message : Option PyMsg
deriving DecidableEq

/-- Python `str.strip('%')`: remove leading and trailing percent signs. -/
def pyStripPercent (s : String) : String :=
  ⟨((s.toList.dropWhile (· == '%')).reverse.dropWhile (· == '%')).reverse⟩

/-- Model of the `progress_hook` closure inside `download_audio`: a
`downloading` event overwrites the tracked fields (the percent field is the
provider-formatted `_percent_str` with percent signs stripped, defaulting to
`"0%"`), a `finished` event switches the record to `converting`, and any
other event leaves the record unchanged. -/
def progress_hook (r : ProgressRecord) (d : Event) : ProgressRecord :=
  if d.status = "downloading" then
    { r with
      status := "downloading"
      percent := pyStripPercent (d.percentStr.getD "0%")
      downloadedBytes := d.downloadedBytes.getD 0
      totalBytes := d.totalBytes.getD 0
      speed := d.speedStr.getD "0 B/s"
      eta := d.etaStr.getD "Unknown"
      filename := d.filename.getD ""
      title := d.title.getD "" }
  else if d.status = "finished" then
    { r with status := "converting", percent := "100", filename := d.filename.getD "" }
  else r

/-- The metadata subset `download_audio` passes to the policy gate. -/
structure VideoLimitsInfo where
  duration_seconds : Nat
  is_live : Bool
  age_limit : Nat
deriving DecidableEq

/-- Model of `check_pythonanywhere_limits`: a no-op off PythonAnywhere;
otherwise reject (raise) on duration over 600 s, live streams, and
age-restricted sources, in that order. -/
def check_pythonanywhere_limits (isPA : Bool) (v : VideoLimitsInfo) : Except String Unit :=
  if !isPA then .ok ()
  else if v.duration_seconds > 600 then
    .error "Video too long. Max 10 minutes for PythonAnywhere free tier."
  else if v.is_live then .error "Live streams cannot be downloaded."
  else if v.age_limit > 0 then .error "Age-restricted videos cannot be downloaded."
  else .ok ()

/-- Whether `pat` occurs at the head of `s`. -/
def startsWithChars (s pat : List Char) : Bool :=
  match s, pat with
  | _, [] => true
  | [], _ :: _ => false
  | c :: cs, p :: ps => c == p && startsWithChars cs ps

/-- Whether `pat` occurs anywhere inside `s`. -/
def containsChars (s pat : List Char) : Bool :=
  match s with
  | [] => pat.isEmpty
  | c :: rest => startsWithChars (c :: rest) pat || containsChars rest pat

/-- Substring test, as Python `pat in s`. -/
def strContains (s pat : String) : Bool := containsChars s.toList pat.toList

/-- ASCII lowercasing of one character, as Python `str.lower()` on ASCII. -/
def pyLowerChar (c : Char) : Char :=
  if 'A' ≤ c ∧ c ≤ 'Z' then Char.ofNat (c.toNat + 32) else c

/-- Python `str.lower()` (ASCII range). -/
def strLower (s : String) : String := ⟨s.toList.map pyLowerChar⟩

/-- Model of the error-message mapping in the `yt_dlp.utils.DownloadError`
handler of `download_audio`. -/
def friendly_error (m : String) : String :=
  if strContains m "Private video" then "This video is private or requires login."
  else if strContains m "Video unavailable" then
    "This video is unavailable in your country or has been removed."
  else if strContains m "Sign in to confirm" then "This video requires age verification."
  else if strContains (strLower m) "too many requests" then
    "Too many requests. Please wait a few minutes."
  else m

/-- Python `error_msg[:200]`: keep the first 200 characters. -/
def truncate200 (s : String) : String := ⟨s.toList.take 200⟩

/-- Remote metadata returned by `ydl.extract_info(url, download=False)`. -/
structure FetchInfo where
  duration : Nat
  is_live : Bool
  age_limit : Nat
  title : String
deriving DecidableEq

/-- How a provider call fails: a `yt_dlp.utils.DownloadError` or any other
exception. -/
inductive PyErr where
  | downloadError (msg : String)
  | otherError (msg : String)
deriving DecidableEq

/-- The environment a `download_audio` run interacts with: host flags,
precondition probes, the metadata fetch, the pre-transfer filesystem, the
events and outcome of `ydl.download`, and the post-transfer filesystem. -/
structure DLEnv where
  isPA : Bool
  ffmpegOk : Bool
  freeMB : Nat
  extract : Except PyErr FetchInfo
  fileExists : String → Bool
  fileSizeMB : String → ℚ
  transferEvents : List Event
  transferResult : Except PyErr Unit
  fileExistsAfter : String → Bool
  fileSizeAfterMB : String → ℚ

/-- The dict `download_audio` returns on the non-raising paths. -/
inductive DLOk where
  | alreadyExists (filename : String) (sizeMB : ℚ) (title : String) (quality : String)
  | downloaded (filename : String) (sizeMB : ℚ) (title : String) (quality : String)
deriving DecidableEq

/-- Observable outcome of one `download_audio` run: the returned value or
raised message, the history entries appended, the final registry record
(`none` when the record was never created), every status value written to
the record in order, and whether the metadata fetch and the transfer were
attempted. -/
structure DLRun where
  result : Except String DLOk
  history : List HistoryEntry
  record : Option ProgressRecord
  statusTrace : List String
  fetchedMetadata : Bool
  didTransfer : Bool

/-- The record installed at `download_progress[download_id]` on entry. -/
def initRecord : ProgressRecord :=
  { status := "starting", percent := "0", downloadedBytes := 0, totalBytes := 0,
    speed := "0 B/s", eta := "Unknown", filename := "", title := "", message := none }

/-- The history entry `save_to_history(url, "", "", 0, "failed")` appended by
both exception handlers. -/
def failedEntry (url : String) : HistoryEntry :=
  { url := url, title := "", filename := "", sizeMB := 0, outcome := "failed" }

/-- Status values `progress_hook` writes for a list of events. -/
def hookStatusWrites (evs : List Event) : List String :=
  evs.filterMap (fun d =>
    if d.status = "downloading" then some "downloading"
    else if d.status = "finished" then some "converting"
    else none)

/-- The post-transfer artifact probe: the first of `.mp3`, `.webm`, `.m4a`
whose file exists, with its size. -/
def probe (env : DLEnv) (cleanTitle : String) : Option (String × ℚ) :=
  [".mp3", ".webm", ".m4a"].findSome? (fun ext =>
    if env.fileExistsAfter (cleanTitle ++ ext) then
      some (cleanTitle ++ ext, env.fileSizeAfterMB (cleanTitle ++ ext))
    else none)

/-- Model of `download_audio` from `app.py`, with `download_id` present and
all effects explicit.  Branch structure mirrors the source: FFmpeg and disk
preconditions raise before the registry record is created and before any
provider call; the metadata fetch and policy gate run next; an existing
target file short-circuits with an `exists` result while marking the record
`completed`; otherwise the transfer runs, the artifact is probed, and the
three exception paths (`DownloadError`, generic, probe miss) record history
and (except for `DownloadError`) set the record to `error` with the message
truncated to 200 characters. -/
def download_audio (env : DLEnv) (url : String) (quality : String) : DLRun :=
  if !env.ffmpegOk then
    { result := .error "FFmpeg is not available. This is required for MP3 conversion.",
      history := [], record := none, statusTrace := [],
      fetchedMetadata := false, didTransfer := false }
  else if env.freeMB < 100 then
    { result := .error "Insufficient disk space.",
      history := [], record := none, statusTrace := [],
      fetchedMetadata := false, didTransfer := false }
  else
    match env.extract with
    | .error (.downloadError m) =>
      { result := .error (friendly_error m),
        history := [failedEntry url],
        record := some initRecord,
        statusTrace := ["starting"],
        fetchedMetadata := true, didTransfer := false }
    | .error (.otherError m) =>
      { result := .error m,
        history := [failedEntry url],
        record := some { initRecord with status := "error", message := some (.errText (truncate200 m)) },
        statusTrace := ["starting", "error"],
        fetchedMetadata := true, didTransfer := false }
    | .ok info =>
      match check_pythonanywhere_limits env.isPA ⟨info.duration, info.is_live, info.age_limit⟩ with
      | .error m =>
        { result := .error m,
          history := [failedEntry url],
          record := some { initRecord with status := "error", message := some (.errText (truncate200 m)) },
          statusTrace := ["starting", "error"],
          fetchedMetadata := true, didTransfer := false }
      | .ok _ =>
        let cleanTitle := cleanFilenameStr info.title
        let mp3name := cleanTitle ++ ".mp3"
        let r1 := { initRecord with title := info.title }
        if env.fileExists mp3name then
          let rEx := { r1 with status := "completed", percent := "100", filename := mp3name, message := some (.alreadyDownloaded cleanTitle (env.fileSizeMB mp3name)) }
          { result := .ok (.alreadyExists mp3name (env.fileSizeMB mp3name) info.title quality),
            history := [],
            record := some rEx,
            statusTrace := ["starting", "completed"],
            fetchedMetadata := true, didTransfer := false }
        else
          let r2 := { r1 with status := "downloading", percent := "0" }
          let r3 := env.transferEvents.foldl progress_hook r2
          let preTrace := ["starting", "downloading"] ++ hookStatusWrites env.transferEvents
          match env.transferResult with
          | .error (.downloadError m) =>
            { result := .error (friendly_error m),
              history := [failedEntry url],
              record := some r3,
              statusTrace := preTrace,
              fetchedMetadata := true, didTransfer := true }
          | .error (.otherError m) =>
            { result := .error m,
              history := [failedEntry url],
              record := some { r3 with status := "error", message := some (.errText (truncate200 m)) },
              statusTrace := preTrace ++ ["error"],
              fetchedMetadata := true, didTransfer := true }
          | .ok _ =>
            match probe env cleanTitle with
            | some (fname, size) =>
              let rDone := { r3 with status := "completed", percent := "100", filename := fname, message := some (.downloadedMsg fname size) }
              { result := .ok (.downloaded fname size info.title quality),
                history := [{ url := url, title := info.title, filename := fname, sizeMB := size, outcome := "success" }],
                record := some rDone,
                statusTrace := preTrace ++ ["completed"],
                fetchedMetadata := true, didTransfer := true }
            | none =>
              let mnf := "Download completed but file not found"
              { result := .error mnf,
                history := [{ url := url, title := info.title, filename := "", sizeMB := 0, outcome := "failed" },
                            failedEntry url],
                record := some { r3 with status := "error", message := some (.errText (truncate200 mnf)) },
                statusTrace := preTrace ++ ["error"],
                fetchedMetadata := true, didTransfer := true }

/-- Capacity constant from `app.py`. -/
def MAX_CONCURRENT_DOWNLOADS : Nat := 1

/-- Admission-control state: `finished` is the key list of the module-level
dict `active_downloads` (a job id is inserted only when its worker thread
terminates), `running` counts worker threads currently executing. -/
structure SrvState where
  finished : List String
  running : Nat
deriving DecidableEq

/-- Events the admission-control state reacts to: a `POST /download`
submission, or a worker thread terminating. -/
inductive SrvEv where
  | submit (id : String)
  | finish (id : String)
deriving DecidableEq

/-- Responses of the admission-control layer. -/
inductive SrvResp where
  | started (id : String)
  | rejected429
  | finishedAck
deriving DecidableEq

/-- One step of the `/download` route's capacity check plus the
worker-termination bookkeeping of `download_thread`: a submission is
rejected with HTTP 429 iff `len(active_downloads) >= MAX_CONCURRENT_DOWNLOADS`,
and an accepted submission starts one more worker thread; a terminating
worker stores its result into `active_downloads`. -/
def srv_step (s : SrvState) (e : SrvEv) : SrvState × SrvResp :=
  match e with
  | .submit id =>
    if s.finished.length ≥ MAX_CONCURRENT_DOWNLOADS then (s, .rejected429)
    else ({ s with running := s.running + 1 }, .started id)
  | .finish id => ({ finished := s.finished ++ [id], running := s.running - 1 }, .finishedAck)

/-- Run a sequence of events, collecting the responses in order. -/
def srv_run : SrvState → List SrvEv → SrvState × List SrvResp
  | s, [] => (s, [])
  | s, e :: evs =>
    let p := srv_step s e
    let q := srv_run p.1 evs
    (q.1, p.2 :: q.2)

/-! Concrete environments used by witnesses and counterexamples. -/

/-- Metadata of a short, unrestricted source. -/
def infoSong : FetchInfo := { duration := 100, is_live := false, age_limit := 0, title := "song" }

/-- Environment for a second run over an artifact that already exists. -/
def envSecondRun : DLEnv :=
  { isPA := false, ffmpegOk := true, freeMB := 2000, extract := .ok infoSong,
    fileExists := fun _ => true, fileSizeMB := fun _ => 3,
    transferEvents := [], transferResult := .ok (),
    fileExistsAfter := fun _ => true, fileSizeAfterMB := fun _ => 3 }

/-- Metadata of a live, age-restricted, over-long source. -/
def infoLive : FetchInfo := { duration := 50000, is_live := true, age_limit := 18, title := "livecast" }

/-- Environment running the live source on a local (non-PythonAnywhere) host. -/
def envLiveLocal : DLEnv :=
  { isPA := false, ffmpegOk := true, freeMB := 2000, extract := .ok infoLive,
    fileExists := fun _ => false, fileSizeMB := fun _ => 0,
    transferEvents := [], transferResult := .ok (),
    fileExistsAfter := fun _ => true, fileSizeAfterMB := fun _ => 5 }

/-- The same live source on PythonAnywhere. -/
def envLivePA : DLEnv := { envLiveLocal with isPA := true }

/-- Environment with FFmpeg unavailable. -/
def envNoFF : DLEnv :=
  { isPA := false, ffmpegOk := false, freeMB := 2000,
    extract := .error (.otherError "net"), fileExists := fun _ => false,
    fileSizeMB := fun _ => 0, transferEvents := [], transferResult := .ok (),
    fileExistsAfter := fun _ => false, fileSizeAfterMB := fun _ => 0 }

/-- A 250-character diagnostic message with no known provider substring. -/
def longMsg : String := ⟨List.replicate 250 'x'⟩

/-- Environment whose metadata fetch raises a provider `DownloadError`. -/
def envFetchErr : DLEnv :=
  { isPA := false, ffmpegOk := true, freeMB := 2000,
    extract := .error (.downloadError longMsg),
    fileExists := fun _ => false, fileSizeMB := fun _ => 0,
    transferEvents := [], transferResult := .ok (),
    fileExistsAfter := fun _ => false, fileSizeAfterMB := fun _ => 0 }

/-! Claim theorems. -/

/-- Claim C9 (confirmed): after every append the stored history holds at
most 100 entries; the stored list is a suffix of the previous history with
the new entry appended (so only the oldest entries are dropped), the new
entry is last, and on overflow exactly the most recent 100 are kept. -/
theorem save_to_history_bounded (h : List HistoryEntry) (e : HistoryEntry) :
    (save_to_history h e).length ≤ 100
    ∧ save_to_history h e <:+ h ++ [e]
    ∧ (save_to_history h e).getLast? = some e
    ∧ ((h ++ [e]).length > 100 →
        save_to_history h e = (h ++ [e]).drop ((h ++ [e]).length - 100)) := by
  unfold save_to_history
  by_cases hlen : (h ++ [e]).length > 100
  · simp only [if_pos hlen]
    refine ⟨?_, ?_, ?_, by simp⟩
    · rw [List.length_drop]; omega
    · exact List.drop_suffix _ _
    · have hle : (h ++ [e]).length - 100 ≤ h.length := by
        simp only [List.length_append, List.length_cons, List.length_nil] at hlen ⊢
        omega
      rw [List.drop_append_of_le_length hle]
      exact List.getLast?_concat _
  · simp only [if_neg hlen]
    exact ⟨by omega, List.suffix_refl _, List.getLast?_concat _, fun hc => absurd hc hlen⟩

/-- Witness for C9 at a history already holding 100 entries. -/
theorem save_to_history_bounded_witness :
    (save_to_history (List.replicate 100 (failedEntry "u")) (failedEntry "v")).length ≤ 100
    ∧ save_to_history (List.replicate 100 (failedEntry "u")) (failedEntry "v")
        = (List.replicate 100 (failedEntry "u") ++ [failedEntry "v"]).drop
            ((List.replicate 100 (failedEntry "u") ++ [failedEntry "v"]).length - 100) := by
  have h := save_to_history_bounded (List.replicate 100 (failedEntry "u")) (failedEntry "v")
  exact ⟨h.1, h.2.2.2 (by simp)⟩

/-- One step never removes anything from `active_downloads`. -/
theorem srv_step_finished_grows (s : SrvState) (e : SrvEv) :
    s.finished <+: (srv_step s e).1.finished := by
  cases e with
  | submit id =>
    unfold srv_step
    by_cases h : s.finished.length ≥ MAX_CONCURRENT_DOWNLOADS
    · simp [h]
    · simp [h]
  | finish id => exact ⟨[id], rfl⟩

/-- Claim C10 (confirmed): `active_downloads` only grows — a job id is added
when its worker terminates and no operation removes entries — so once its
size has reached `MAX_CONCURRENT_DOWNLOADS` every subsequent `POST /download`
submission is rejected with HTTP 429 and no further worker is ever started. -/
theorem active_downloads_saturation (s : SrvState) (evs : List SrvEv) :
    s.finished <+: (srv_run s evs).1.finished
    ∧ (s.finished.length ≥ MAX_CONCURRENT_DOWNLOADS →
        ∀ id, SrvResp.started id ∉ (srv_run s evs).2) := by
  induction evs generalizing s with
  | nil => exact ⟨List.prefix_refl _, by intro _ id h; simp [srv_run] at h⟩
  | cons e evs ih =>
    refine ⟨(srv_step_finished_grows s e).trans (ih (srv_step s e).1).1, ?_⟩
    intro hsat id
    have hsat' : (srv_step s e).1.finished.length ≥ MAX_CONCURRENT_DOWNLOADS := by
      have hle := (srv_step_finished_grows s e).length_le
      omega
    have hrest := (ih (srv_step s e).1).2 hsat' id
    have hresp : (srv_step s e).2 ≠ SrvResp.started id := by
      cases e with
      | submit j => unfold srv_step; simp [hsat]
      | finish j => unfold srv_step; simp
    simp only [srv_run]
    intro hmem
    rcases List.mem_cons.mp hmem with hcase | hcase
    · exact hresp hcase.symm
    · exact hrest hcase

/-- Witness for C10: from a state with one recorded (finished) job, a later
submission is never answered with `started`. -/
theorem active_downloads_saturation_witness :
    SrvResp.started "b" ∉
      (srv_run { finished := ["done1"], running := 0 }
        [SrvEv.submit "b", SrvEv.finish "c", SrvEv.submit "b"]).2 :=
  (active_downloads_saturation { finished := ["done1"], running := 0 } _).2 (by decide) "b"

/-- Claim C2 (code bug): from the initial state, two submissions arriving
before the first worker terminates are both accepted — `active_downloads`
is only populated on worker termination, so the capacity check passes twice
and two worker threads run concurrently. -/
theorem admission_race :
    srv_run { finished := [], running := 0 } [SrvEv.submit "a", SrvEv.submit "b"]
      = ({ finished := [], running := 2 }, [SrvResp.started "a", SrvResp.started "b"]) := by
  rfl

/-- Claim C5 (confirmed): when FFmpeg is unavailable or free disk space is
below 0.1 GB, `download_audio` raises before any network activity: no
metadata fetch, no transfer, no registry record and no progress writes. -/
theorem preconditions_abort_before_network (env : DLEnv) (url quality : String)
    (h : env.ffmpegOk = false ∨ env.freeMB < 100) :
    (∃ m, (download_audio env url quality).result = Except.error m)
    ∧ (download_audio env url quality).fetchedMetadata = false
    ∧ (download_audio env url quality).didTransfer = false
    ∧ (download_audio env url quality).statusTrace = []
    ∧ (download_audio env url quality).record = none := by
  unfold download_audio
  rcases h with h | h
  · rw [h]
    rw [if_pos (by decide : (!false) = true)]
    exact ⟨⟨_, rfl⟩, rfl, rfl, rfl, rfl⟩
  · cases hf : env.ffmpegOk
    · rw [if_pos (by decide : (!false) = true)]
      exact ⟨⟨_, rfl⟩, rfl, rfl, rfl, rfl⟩
    · rw [if_neg (by decide : ¬ ((!true) = true)), if_pos h]
      exact ⟨⟨_, rfl⟩, rfl, rfl, rfl, rfl⟩

/-- Witness for C5 with FFmpeg unavailable. -/
theorem preconditions_abort_witness :
    (download_audio envNoFF "u" "128").fetchedMetadata = false
    ∧ (download_audio envNoFF "u" "128").record = none := by
  have h := preconditions_abort_before_network envNoFF "u" "128" (Or.inl rfl)
  exact ⟨h.2.1, h.2.2.2.2⟩

/-- Percent formatting modelled from the spec words for claim C6:
`bytes_done / bytes_total * 100` rendered with one decimal place. -/
def fmtPercent1 (done total : Nat) : String :=
  let t := done * 1000 / total
  toString (t / 10) ++ "." ++ toString (t % 10)

/-- A `downloading` event carrying byte counts but no provider-formatted
percent string. -/
def evBytesOnly : Event :=
  { status := "downloading", percentStr := none, downloadedBytes := some 50,
    totalBytes := some 100, speedStr := none, etaStr := none, filename := none, title := none }

/-- Claim C6 counterexample: the hook never computes
`bytes_done / bytes_total * 100`; with known positive totals but no
provider percent string it writes `"0"`, not `"50.0"`. -/
theorem percent_not_computed_counterexample :
    (progress_hook initRecord evBytesOnly).totalBytes = 100
    ∧ (progress_hook initRecord evBytesOnly).downloadedBytes = 50
    ∧ (progress_hook initRecord evBytesOnly).percent = "0"
    ∧ fmtPercent1 50 100 = "50.0"
    ∧ (progress_hook initRecord evBytesOnly).percent ≠ fmtPercent1 50 100 := by
  refine ⟨rfl, rfl, rfl, rfl, by decide⟩

/-- Claim C6 (amended): for a `downloading` event the percent written to the
registry record is the provider-supplied `_percent_str` with percent signs
stripped from both ends, and `"0"` when the provider supplies none. -/
theorem percent_passthrough (r : ProgressRecord) (d : Event) (h : d.status = "downloading") :
    (progress_hook r d).percent = pyStripPercent (d.percentStr.getD "0%")
    ∧ (d.percentStr = none → (progress_hook r d).percent = "0") := by
  constructor
  · unfold progress_hook; rw [if_pos h]
  · intro hn; unfold progress_hook; rw [if_pos h, hn]; rfl

/-- Witness for C6 on a provider-formatted padded percent string: the
leading space survives, only percent signs are stripped. -/
theorem percent_passthrough_witness :
    (progress_hook initRecord
      { status := "downloading", percentStr := some " 12.3%", downloadedBytes := some 1,
        totalBytes := some 8, speedStr := none, etaStr := none,
        filename := none, title := none }).percent = " 12.3" := by
  have h := percent_passthrough initRecord
    { status := "downloading", percentStr := some " 12.3%", downloadedBytes := some 1,
      totalBytes := some 8, speedStr := none, etaStr := none,
      filename := none, title := none } rfl
  rw [h.1]
  rfl

/-- Claim C3 counterexample: on the exists path the registry record's state
is `"completed"`, not `"exists"`, so "reports state `exists` ... in the
job's registry record" fails. -/
theorem exists_state_counterexample :
    (download_audio envSecondRun "u" "128").result
      = Except.ok (DLOk.alreadyExists "song.mp3" 3 "song" "128")
    ∧ ((download_audio envSecondRun "u" "128").record.map ProgressRecord.status) = some "completed"
    ∧ ((download_audio envSecondRun "u" "128").record.map ProgressRecord.status)
        ≠ (some "exists" : Option String) := by
  refine ⟨rfl, rfl, ?_⟩
  intro hc
  rw [show ((download_audio envSecondRun "u" "128").record.map ProgressRecord.status)
        = some "completed" from rfl] at hc
  simp at hc

/-- Claim C3 (amended): when the sanitized target file already exists the
run skips the transfer and returns an `exists` result carrying the existing
file's size (hence equal to the first run's reported size when the file is
unchanged), appends no history entry, and the registry record is marked
`completed` with percent 100 — not `exists`. -/
theorem exists_branch (env : DLEnv) (url quality : String) (info : FetchInfo)
    (hff : env.ffmpegOk = true) (hsp : ¬ env.freeMB < 100)
    (hex : env.extract = .ok info)
    (hlim : check_pythonanywhere_limits env.isPA
      ⟨info.duration, info.is_live, info.age_limit⟩ = .ok ())
    (hfile : env.fileExists (cleanFilenameStr info.title ++ ".mp3") = true) :
    (download_audio env url quality).result
      = Except.ok (DLOk.alreadyExists (cleanFilenameStr info.title ++ ".mp3")
          (env.fileSizeMB (cleanFilenameStr info.title ++ ".mp3")) info.title quality)
    ∧ (download_audio env url quality).didTransfer = false
    ∧ (download_audio env url quality).history = []
    ∧ ((download_audio env url quality).record.map ProgressRecord.status) = some "completed"
    ∧ ((download_audio env url quality).record.map ProgressRecord.percent) = some "100" := by
  unfold download_audio
  rw [hff, if_neg (by decide : ¬ ((!true) = true)), if_neg hsp, hex]
  dsimp only
  rw [hlim]
  dsimp only
  rw [if_pos hfile]
  exact ⟨rfl, rfl, rfl, rfl, rfl⟩

/-- Witness for C3 applied to the concrete second-run environment. -/
theorem exists_branch_witness :
    (download_audio envSecondRun "u" "128").didTransfer = false
    ∧ (download_audio envSecondRun "u" "128").history = [] := by
  have h := exists_branch envSecondRun "u" "128" infoSong rfl (by decide) rfl rfl rfl
  exact ⟨h.2.1, h.2.2.1⟩

/-- Claim C4 counterexample: off PythonAnywhere the policy gate is a no-op —
a live, age-restricted, over-long source still reaches `downloading` and
completes, refuting "regardless of the hosting environment". -/
theorem policy_gate_local_counterexample :
    infoLive.is_live = true
    ∧ (download_audio envLiveLocal "u" "128").result
        = Except.ok (DLOk.downloaded "livecast.mp3" 5 "livecast" "128")
    ∧ "downloading" ∈ (download_audio envLiveLocal "u" "128").statusTrace := by
  refine ⟨rfl, rfl, ?_⟩
  show "downloading" ∈ (["starting", "downloading", "completed"] : List String)
  simp

/-- Claim C4 (amended): on PythonAnywhere a live, age-restricted or
over-long (>600 s) source makes the worker raise straight to `error`: the
run fails, no `downloading` status is ever written to the record, no
transfer is attempted, and one `failed` history entry is appended.  Off
PythonAnywhere the gate does not apply. -/
theorem policy_gate_on_pythonanywhere (env : DLEnv) (url quality : String) (info : FetchInfo)
    (hPA : env.isPA = true) (hff : env.ffmpegOk = true) (hsp : ¬ env.freeMB < 100)
    (hex : env.extract = .ok info)
    (hbad : info.is_live = true ∨ 0 < info.age_limit ∨ 600 < info.duration) :
    (∃ m, (download_audio env url quality).result = Except.error m)
    ∧ "downloading" ∉ (download_audio env url quality).statusTrace
    ∧ (download_audio env url quality).didTransfer = false
    ∧ (download_audio env url quality).history.map HistoryEntry.outcome = ["failed"] := by
  have hgate : ∃ m, check_pythonanywhere_limits env.isPA
      ⟨info.duration, info.is_live, info.age_limit⟩ = Except.error m := by
    rw [hPA]
    unfold check_pythonanywhere_limits
    rw [if_neg (by decide : ¬ ((!true) = true))]
    by_cases hd : info.duration > 600
    · rw [if_pos hd]; exact ⟨_, rfl⟩
    · rw [if_neg hd]
      by_cases hl : info.is_live = true
      · rw [if_pos hl]; exact ⟨_, rfl⟩
      · rw [if_neg hl]
        have ha : info.age_limit > 0 := by
          rcases hbad with hb | hb | hb
          · exact absurd hb hl
          · exact hb
          · exact absurd hb hd
        rw [if_pos ha]; exact ⟨_, rfl⟩
  obtain ⟨m, hm⟩ := hgate
  unfold download_audio
  rw [hff, if_neg (by decide : ¬ ((!true) = true)), if_neg hsp, hex]
  dsimp only
  rw [hm]
  dsimp only
  refine ⟨⟨m, rfl⟩, by decide, rfl, rfl⟩

/-- Witness for C4 on PythonAnywhere with the live source. -/
theorem policy_gate_witness :
    "downloading" ∉ (download_audio envLivePA "u" "128").statusTrace
    ∧ (download_audio envLivePA "u" "128").didTransfer = false := by
  have h := policy_gate_on_pythonanywhere envLivePA "u" "128" infoLive rfl rfl (by decide)
    rfl (Or.inl rfl)
  exact ⟨h.2.1, h.2.2.1⟩

set_option maxRecDepth 20000 in
/-- Claim C7 counterexample: a provider `DownloadError` during the fetch
leaves the registry record at `"starting"` — it never reaches `error` — and
the raised message is the full 250-character text, unbounded. -/
theorem error_record_counterexample :
    ((download_audio envFetchErr "u" "128").record.map ProgressRecord.status) = some "starting"
    ∧ (some "starting" : Option String) ≠ some "error"
    ∧ (download_audio envFetchErr "u" "128").result = Except.error longMsg
    ∧ 200 < longMsg.length := by
  refine ⟨rfl, by decide, ?_, by decide⟩
  show Except.error (friendly_error longMsg) = Except.error longMsg
  rw [show friendly_error longMsg = longMsg from by decide]

/-- Claim C7 (amended): failures raised as generic exceptions set the
registry record to `error` with the message truncated to 200 characters,
and the known provider substrings are mapped to friendlier phrases inside
the `DownloadError` handler; but a `DownloadError` itself never updates the
registry record (which keeps its last value, e.g. `starting` during fetch or
`downloading` during transfer) and its message propagates untruncated. -/
theorem error_paths (env : DLEnv) (url quality m : String)
    (hff : env.ffmpegOk = true) (hsp : ¬ env.freeMB < 100) :
    (env.extract = .error (.downloadError m) →
      (download_audio env url quality).result = Except.error (friendly_error m)
      ∧ ((download_audio env url quality).record.map ProgressRecord.status) = some "starting"
      ∧ (download_audio env url quality).history = [failedEntry url])
    ∧ (env.extract = .error (.otherError m) →
      ((download_audio env url quality).record.map ProgressRecord.status) = some "error"
      ∧ ((download_audio env url quality).record.map ProgressRecord.message)
          = some (some (PyMsg.errText (truncate200 m))))
    ∧ (truncate200 m).length ≤ 200
    ∧ (strContains m "Private video" = true →
        friendly_error m = "This video is private or requires login.")
    ∧ (∀ info, env.extract = .ok info →
        check_pythonanywhere_limits env.isPA
          ⟨info.duration, info.is_live, info.age_limit⟩ = .ok () →
        env.fileExists (cleanFilenameStr info.title ++ ".mp3") = false →
        env.transferEvents = [] →
        env.transferResult = .error (.downloadError m) →
        ((download_audio env url quality).record.map ProgressRecord.status) = some "downloading"
        ∧ (download_audio env url quality).result = Except.error (friendly_error m)) := by
  refine ⟨?_, ?_, ?_, ?_, ?_⟩
  · intro hex
    unfold download_audio
    rw [hff, if_neg (by decide : ¬ ((!true) = true)), if_neg hsp, hex]
    exact ⟨rfl, rfl, rfl⟩
  · intro hex
    unfold download_audio
    rw [hff, if_neg (by decide : ¬ ((!true) = true)), if_neg hsp, hex]
    exact ⟨rfl, rfl⟩
  · show (⟨m.toList.take 200⟩ : String).length ≤ 200
    show (m.toList.take 200).length ≤ 200
    exact List.length_take_le _ _
  · intro hc
    unfold friendly_error
    rw [if_pos hc]
  · intro info hex hlim hfile hev htr
    unfold download_audio
    rw [hff, if_neg (by decide : ¬ ((!true) = true)), if_neg hsp, hex]
    dsimp only
    rw [hlim]
    dsimp only
    rw [if_neg (by rw [hfile]; exact Bool.false_ne_true), hev, htr]
    exact ⟨rfl, rfl⟩

/-- Witness for C7 at the concrete fetch-failure environment. -/
theorem error_paths_witness :
    (download_audio envFetchErr "u" "128").history = [failedEntry "u"]
    ∧ (truncate200 longMsg).length ≤ 200 := by
  have h := error_paths envFetchErr "u" "128" longMsg rfl (by decide)
  exact ⟨(h.1 rfl).2.2, h.2.2.1⟩

/-- Claim C1 counterexample: a job that terminates in the `exists` state
appends no history entry at all — not exactly one. -/
theorem history_exists_counterexample :
    (download_audio envSecondRun "u" "128").result
      = Except.ok (DLOk.alreadyExists "song.mp3" 3 "song" "128")
    ∧ (download_audio envSecondRun "u" "128").history = []
    ∧ (download_audio envSecondRun "u" "128").history.length ≠ 1 := by
  refine ⟨rfl, rfl, ?_⟩
  intro hc
  rw [show (download_audio envSecondRun "u" "128").history = [] from rfl] at hc
  simp at hc

/-- Claim C1 (amended): history appends per terminal path — a successful
download appends exactly one `success` entry; an `exists` run appends none;
an error raised before the metadata fetch (FFmpeg or disk precondition)
appends none; and each post-fetch error path is pinned exactly: a fetch
failure, a policy-gate rejection, and a transfer failure each append exactly
one `failed` entry, while the artifact-probe miss appends exactly two
(the first still carrying the title, the second with an empty title). -/
theorem history_per_terminal_path (env : DLEnv) (url quality : String) :
    (∀ f s t q, (download_audio env url quality).result = Except.ok (DLOk.downloaded f s t q) →
      (download_audio env url quality).history.map HistoryEntry.outcome = ["success"])
    ∧ (∀ f s t q, (download_audio env url quality).result
        = Except.ok (DLOk.alreadyExists f s t q) →
      (download_audio env url quality).history = [])
    ∧ (∀ m, (download_audio env url quality).result = Except.error m →
      (download_audio env url quality).fetchedMetadata = false →
      (download_audio env url quality).history = [])
    ∧ (∀ e, env.ffmpegOk = true → ¬ env.freeMB < 100 →
      env.extract = Except.error e →
      (download_audio env url quality).history = [failedEntry url])
    ∧ (∀ info m, env.ffmpegOk = true → ¬ env.freeMB < 100 →
      env.extract = Except.ok info →
      check_pythonanywhere_limits env.isPA
        ⟨info.duration, info.is_live, info.age_limit⟩ = Except.error m →
      (download_audio env url quality).history = [failedEntry url])
    ∧ (∀ info e, env.ffmpegOk = true → ¬ env.freeMB < 100 →
      env.extract = Except.ok info →
      check_pythonanywhere_limits env.isPA
        ⟨info.duration, info.is_live, info.age_limit⟩ = Except.ok () →
      env.fileExists (cleanFilenameStr info.title ++ ".mp3") = false →
      env.transferResult = Except.error e →
      (download_audio env url quality).history = [failedEntry url])
    ∧ (∀ info, env.ffmpegOk = true → ¬ env.freeMB < 100 →
      env.extract = Except.ok info →
      check_pythonanywhere_limits env.isPA
        ⟨info.duration, info.is_live, info.age_limit⟩ = Except.ok () →
      env.fileExists (cleanFilenameStr info.title ++ ".mp3") = false →
      env.transferResult = Except.ok () →
      probe env (cleanFilenameStr info.title) = none →
      (download_audio env url quality).history
        = [{ url := url, title := info.title, filename := "", sizeMB := 0, outcome := "failed" },
           failedEntry url]) := by
  unfold download_audio
  by_cases h1 : (!env.ffmpegOk) = true
  · rw [if_pos h1]
    refine ⟨?_, ?_, ?_, ?_, ?_, ?_, ?_⟩ <;> intros <;> simp_all [failedEntry]
  · rw [if_neg h1]
    by_cases h2 : env.freeMB < 100
    · rw [if_pos h2]
      refine ⟨?_, ?_, ?_, ?_, ?_, ?_, ?_⟩ <;> intros <;> simp_all [failedEntry]
    · rw [if_neg h2]
      cases hex : env.extract with
      | error e =>
        cases e with
        | downloadError m =>
          refine ⟨?_, ?_, ?_, ?_, ?_, ?_, ?_⟩ <;> intros <;> simp_all [failedEntry]
        | otherError m =>
          refine ⟨?_, ?_, ?_, ?_, ?_, ?_, ?_⟩ <;> intros <;> simp_all [failedEntry]
      | ok info =>
        cases hlim : check_pythonanywhere_limits env.isPA
            ⟨info.duration, info.is_live, info.age_limit⟩ with
        | error m =>
          refine ⟨?_, ?_, ?_, ?_, ?_, ?_, ?_⟩ <;> intros <;> simp_all [failedEntry]
        | ok u =>
          dsimp only
          by_cases hfile : env.fileExists (cleanFilenameStr info.title ++ ".mp3") = true
          · rw [if_pos hfile]
            refine ⟨?_, ?_, ?_, ?_, ?_, ?_, ?_⟩ <;> intros <;> simp_all [failedEntry]
          · rw [if_neg hfile]
            cases htr : env.transferResult with
            | error e =>
              cases e with
              | downloadError m =>
                refine ⟨?_, ?_, ?_, ?_, ?_, ?_, ?_⟩ <;> intros <;> simp_all [failedEntry]
              | otherError m =>
                refine ⟨?_, ?_, ?_, ?_, ?_, ?_, ?_⟩ <;> intros <;> simp_all [failedEntry]
            | ok u2 =>
              cases hp : probe env (cleanFilenameStr info.title) with
              | none =>
                refine ⟨?_, ?_, ?_, ?_, ?_, ?_, ?_⟩ <;> intros <;> simp_all [failedEntry]
              | some pr =>
                obtain ⟨fname, size⟩ := pr
                refine ⟨?_, ?_, ?_, ?_, ?_, ?_, ?_⟩ <;> intros <;> simp_all [failedEntry]

/-- Environment whose transfer succeeds but whose artifact probe finds no
file under any of the three extensions. -/
def envProbeMiss : DLEnv :=
  { isPA := false, ffmpegOk := true, freeMB := 2000, extract := .ok infoSong,
    fileExists := fun _ => false, fileSizeMB := fun _ => 0,
    transferEvents := [], transferResult := .ok (),
    fileExistsAfter := fun _ => false, fileSizeAfterMB := fun _ => 0 }

/-- Witness for C1: exactly one `success` entry on a completed run, and
exactly two `failed` entries on the artifact-probe miss. -/
theorem history_per_terminal_path_witness :
    (download_audio envLiveLocal "u" "128").history.map HistoryEntry.outcome = ["success"]
    ∧ (download_audio envProbeMiss "u" "128").history
        = [{ url := "u", title := "song", filename := "", sizeMB := 0, outcome := "failed" }, failedEntry "u"] :=
  ⟨(history_per_terminal_path envLiveLocal "u" "128").1 "livecast.mp3" 5 "livecast" "128" rfl,
   (history_per_terminal_path envProbeMiss "u" "128").2.2.2.2.2.2 infoSong rfl
     (by decide) rfl rfl rfl rfl rfl⟩

/-! Sanitization lemmas for claim C8. -/

/-- Adjacent characters are never both whitespace. -/
def okPair (a b : Char) : Prop := isPySpace a = false ∨ isPySpace b = false

/-- The head of a collapsed non-empty list is the original head, with a
whitespace head turned into a space. -/
theorem collapseWS_head : ∀ (c : Char) (r : List Char),
    (collapseWS (c :: r)).head? = some (if isPySpace c = true then ' ' else c)
  | c, [] => by
    cases hc : isPySpace c <;> simp [collapseWS, hc]
  | c, b :: r => by
    cases hc : isPySpace c with
    | true =>
      cases hb : isPySpace b with
      | true =>
        have ih := collapseWS_head b r
        rw [show collapseWS (c :: b :: r) = collapseWS (b :: r) from by
          simp [collapseWS, hc, hb]]
        rw [ih]
        simp [hb]
      | false => simp [collapseWS, hc, hb]
    | false => simp [collapseWS, hc]

/-- Every character of the collapsed list is a character of the input or a
space. -/
theorem collapseWS_mem : ∀ (l : List Char) (c : Char), c ∈ collapseWS l → c ∈ l ∨ c = ' '
  | [], c, h => by simp [collapseWS] at h
  | [a], c, h => by
    cases ha : isPySpace a
    · simp [collapseWS, ha] at h
      exact Or.inl (by simp [h])
    · simp [collapseWS, ha] at h
      exact Or.inr h
  | a :: b :: r, c, h => by
    cases hab : isPySpace a && isPySpace b
    · rw [show collapseWS (a :: b :: r)
          = (if isPySpace a then ' ' else a) :: collapseWS (b :: r) from by
        simp [collapseWS, hab]] at h
      rcases List.mem_cons.mp h with h1 | h1
      · cases ha : isPySpace a
        · have hna : ¬ (isPySpace a = true) := by simp [ha]
          rw [if_neg hna] at h1
          exact Or.inl (by simp [h1])
        · rw [if_pos ha] at h1
          exact Or.inr h1
      · rcases collapseWS_mem (b :: r) c h1 with h2 | h2
        · exact Or.inl (List.mem_cons_of_mem _ h2)
        · exact Or.inr h2
    · rw [show collapseWS (a :: b :: r) = collapseWS (b :: r) from by
        simp [collapseWS, hab]] at h
      rcases collapseWS_mem (b :: r) c h with h2 | h2
      · exact Or.inl (List.mem_cons_of_mem _ h2)
      · exact Or.inr h2

/-- Every whitespace character surviving collapse is the plain space. -/
theorem collapseWS_space : ∀ (l : List Char) (c : Char),
    c ∈ collapseWS l → isPySpace c = true → c = ' '
  | [], c, h, _ => by simp [collapseWS] at h
  | [a], c, h, hs => by
    cases ha : isPySpace a
    · simp [collapseWS, ha] at h
      rw [h] at hs
      rw [hs] at ha
      cases ha
    · simp [collapseWS, ha] at h
      exact h
  | a :: b :: r, c, h, hs => by
    cases hab : isPySpace a && isPySpace b
    · rw [show collapseWS (a :: b :: r)
          = (if isPySpace a then ' ' else a) :: collapseWS (b :: r) from by
        simp [collapseWS, hab]] at h
      rcases List.mem_cons.mp h with h1 | h1
      · cases ha : isPySpace a
        · have hna : ¬ (isPySpace a = true) := by simp [ha]
          rw [if_neg hna] at h1
          rw [h1] at hs
          rw [hs] at ha
          cases ha
        · rw [if_pos ha] at h1
          exact h1
      · exact collapseWS_space (b :: r) c h1 hs
    · rw [show collapseWS (a :: b :: r) = collapseWS (b :: r) from by
        simp [collapseWS, hab]] at h
      exact collapseWS_space (b :: r) c h hs

/-- Collapse leaves no two adjacent whitespace characters. -/
theorem collapseWS_chain : ∀ l : List Char, (collapseWS l).Chain' okPair
  | [] => by simp [collapseWS]
  | [c] => by cases hc : isPySpace c <;> simp [collapseWS, hc]
  | a :: b :: r => by
    have ih := collapseWS_chain (b :: r)
    cases hab : isPySpace a && isPySpace b
    · rw [show collapseWS (a :: b :: r)
          = (if isPySpace a then ' ' else a) :: collapseWS (b :: r) from by
        simp [collapseWS, hab]]
      rw [List.chain'_cons']
      refine ⟨?_, ih⟩
      intro y hy
      rw [collapseWS_head b r] at hy
      simp only [Option.mem_def, Option.some.injEq] at hy
      subst hy
      cases hb : isPySpace b with
      | true =>
        have ha : isPySpace a = false := by
          cases haa : isPySpace a
          · rfl
          · rw [haa, hb] at hab; cases hab
        simp [ha]
        exact Or.inl ha
      | false =>
        simp
        exact Or.inr hb
    · rw [show collapseWS (a :: b :: r) = collapseWS (b :: r) from by
        simp [collapseWS, hab]]
      exact ih

/-- Dropping a prefix by predicate yields a suffix. -/
theorem dropWhile_back (p : Char → Bool) : ∀ l : List Char, l.dropWhile p <:+ l
  | [] => List.suffix_refl _
  | c :: r => by
    cases hc : p c
    · rw [List.dropWhile_cons, if_neg (by simp [hc])]
    · rw [List.dropWhile_cons, if_pos (by simp [hc])]
      exact (dropWhile_back p r).trans (List.suffix_cons c r)

/-- Stripping whitespace from both ends keeps a contiguous middle part. -/
theorem pyStrip_middle (l : List Char) : pyStrip l <:+: l := by
  have h1 : l.dropWhile isPySpace <:+ l := dropWhile_back _ l
  have h2 : (l.dropWhile isPySpace).reverse.dropWhile isPySpace
      <:+ (l.dropWhile isPySpace).reverse := dropWhile_back _ _
  have h3 := List.reverse_prefix.mpr h2
  rw [List.reverse_reverse] at h3
  obtain ⟨t, ht⟩ := h3
  obtain ⟨s, hs⟩ := h1
  refine ⟨s, t, ?_⟩
  show s ++ ((l.dropWhile isPySpace).reverse.dropWhile isPySpace).reverse ++ t = l
  rw [List.append_assoc, ht, hs]

/-- A prefix is an infix. -/
theorem middle_of_front {l₁ l₂ : List Char} (h : l₁ <+: l₂) : l₁ <:+: l₂ := by
  obtain ⟨t, ht⟩ := h
  exact ⟨[], t, by simpa using ht⟩

/-- A suffix is an infix. -/
theorem middle_of_back {l₁ l₂ : List Char} (h : l₁ <:+ l₂) : l₁ <:+: l₂ := by
  obtain ⟨s, hs⟩ := h
  exact ⟨s, [], by simpa using hs⟩

/-- `Chain'` restricts to contiguous sublists. -/
theorem chain'_of_middle {R : Char → Char → Prop} {l₁ l₂ : List Char}
    (h : l₂.Chain' R) (hinf : l₁ <:+: l₂) : l₁.Chain' R :=
  List.Chain'.infix h hinf

/-- The last-dot index points at a dot. -/
theorem lastIdxOfDot_drop : ∀ (l : List Char) (i : Nat), lastIdxOfDot l = some i →
    (l.drop i).head? = some '.'
  | [], i, h => by simp [lastIdxOfDot] at h
  | c :: r, i, h => by
    rw [lastIdxOfDot] at h
    cases hr : lastIdxOfDot r with
    | some j =>
      rw [hr] at h
      simp only [Option.some.injEq] at h
      subst h
      rw [List.drop_succ_cons]
      exact lastIdxOfDot_drop r j hr
    | none =>
      rw [hr] at h
      by_cases hc : c = '.'
      · rw [if_pos hc] at h
        simp only [Option.some.injEq] at h
        subst h
        simp [hc]
      · rw [if_neg hc] at h
        cases h

/-- `splitext` is a decomposition of its input. -/
theorem splitext_append (l : List Char) : (splitext l).1 ++ (splitext l).2 = l := by
  unfold splitext
  cases h : lastIdxOfDot l with
  | none => simp
  | some i =>
    dsimp only
    by_cases ha : (l.take i).any (fun c => c != '.') = true
    · rw [if_pos ha]
      exact List.take_append_drop i l
    · rw [if_neg ha]
      simp

/-- The extension returned by `splitext` is empty or starts with a dot. -/
theorem splitext_snd (l : List Char) :
    (splitext l).2 = [] ∨ (splitext l).2.head? = some '.' := by
  unfold splitext
  cases h : lastIdxOfDot l with
  | none => exact Or.inl rfl
  | some i =>
    dsimp only
    by_cases ha : (l.take i).any (fun c => c != '.') = true
    · rw [if_pos ha]
      exact Or.inr (lastIdxOfDot_drop l i h)
    · rw [if_neg ha]
      exact Or.inl rfl

/-- Characters of the sanitized name come from the filtered input or are
spaces. -/
theorem sanitizePart_mem (l : List Char) :
    ∀ c ∈ sanitizePart l, c ∈ l.filter (fun x => !isIllegal x) ∨ c = ' ' := by
  intro c hc
  have hinf : sanitizePart l <:+: collapseWS (l.filter (fun x => !isIllegal x)) :=
    pyStrip_middle _
  exact collapseWS_mem _ c (hinf.sublist.subset hc)

/-- The sanitized name contains no illegal character. -/
theorem sanitizePart_no_illegal (l : List Char) :
    ∀ c ∈ sanitizePart l, isIllegal c = false := by
  intro c hc
  rcases sanitizePart_mem l c hc with h | h
  · have := (List.mem_filter.mp h).2
    simpa using this
  · rw [h]; rfl

/-- Every whitespace character of the sanitized name is a plain space. -/
theorem sanitizePart_space (l : List Char) :
    ∀ c ∈ sanitizePart l, isPySpace c = true → c = ' ' := by
  intro c hc hs
  have hinf : sanitizePart l <:+: collapseWS (l.filter (fun x => !isIllegal x)) :=
    pyStrip_middle _
  exact collapseWS_space _ c (hinf.sublist.subset hc) hs

/-- The sanitized name has no two adjacent whitespace characters. -/
theorem sanitizePart_chain (l : List Char) : (sanitizePart l).Chain' okPair :=
  chain'_of_middle (collapseWS_chain _) (pyStrip_middle _)

/-- Claim C8 (amended): every character of `clean_filename`'s output is
legal (none of the stripped characters remains), whitespace is normalized —
every whitespace character in the output is a plain space and no two are
adjacent — and when the sanitized name exceeds 100 characters the stem is
cut to its first 95 characters with the extension reattached: the extension
is a suffix of the result and the result is at most 95 characters plus the
extension.  (The whole result may still exceed the cap when the extension
itself is long, and a raw title longer than 100 characters whose sanitized
form is short is not truncated at all.) -/
theorem clean_filename_props (l : List Char) :
    (∀ c ∈ clean_filename l, isIllegal c = false)
    ∧ (∀ c ∈ clean_filename l, isPySpace c = true → c = ' ')
    ∧ (clean_filename l).Chain' okPair
    ∧ ((sanitizePart l).length > 100 →
        (splitext (sanitizePart l)).2 <:+ clean_filename l
        ∧ (clean_filename l).length ≤ 95 + (splitext (sanitizePart l)).2.length) := by
  by_cases hlen : (sanitizePart l).length > 100
  · have hcf : clean_filename l
        = (splitext (sanitizePart l)).1.take 95 ++ (splitext (sanitizePart l)).2 := by
      unfold clean_filename
      rw [if_pos hlen]
    have hsplit := splitext_append (sanitizePart l)
    have hfstP : (splitext (sanitizePart l)).1 <+: sanitizePart l := ⟨_, hsplit⟩
    have hsndS : (splitext (sanitizePart l)).2 <:+ sanitizePart l := ⟨_, hsplit⟩
    have htakeP : (splitext (sanitizePart l)).1.take 95 <+: (splitext (sanitizePart l)).1 :=
      ⟨_, List.take_append_drop 95 _⟩
    have hmem : ∀ c ∈ clean_filename l, c ∈ sanitizePart l := by
      intro c hc
      rw [hcf] at hc
      rcases List.mem_append.mp hc with hm | hm
      · exact hfstP.sublist.subset (htakeP.sublist.subset hm)
      · exact hsndS.sublist.subset hm
    refine ⟨fun c hc => sanitizePart_no_illegal l c (hmem c hc),
            fun c hc => sanitizePart_space l c (hmem c hc), ?_, fun _ => ⟨?_, ?_⟩⟩
    · rw [hcf, List.chain'_append]
      refine ⟨?_, ?_, ?_⟩
      · exact chain'_of_middle (sanitizePart_chain l) (middle_of_front (htakeP.trans hfstP))
      · exact chain'_of_middle (sanitizePart_chain l) (middle_of_back hsndS)
      · intro x hx y hy
        rcases splitext_snd (sanitizePart l) with h2 | h2
        · rw [h2] at hy
          cases hy
        · rw [h2] at hy
          simp only [Option.mem_def, Option.some.injEq] at hy
          subst hy
          exact Or.inr (by decide)
    · rw [hcf]
      exact ⟨_, rfl⟩
    · rw [hcf, List.length_append]
      have hle := List.length_take_le 95 (splitext (sanitizePart l)).1
      omega
  · have hcf : clean_filename l = sanitizePart l := by
      unfold clean_filename
      rw [if_neg hlen]
    rw [hcf]
    exact ⟨sanitizePart_no_illegal l, sanitizePart_space l, sanitizePart_chain l,
      fun hc => absurd hc hlen⟩

/-- The 102-character title `a.bb…b` whose extension alone exceeds the cap. -/
def longExtTitle : List Char := 'a' :: '.' :: List.replicate 100 'b'

set_option maxRecDepth 40000 in
/-- Claim C8 counterexample: this title is longer than the 100-character
cap, yet `clean_filename` returns it unchanged — still longer than the cap —
because the 95-character cut applies to the one-character stem while the
101-character extension is reattached whole. -/
theorem clean_filename_longext_counterexample :
    100 < longExtTitle.length
    ∧ clean_filename longExtTitle = longExtTitle
    ∧ 100 < (clean_filename longExtTitle).length := by
  refine ⟨by decide, ?_, by decide⟩
  decide

set_option maxRecDepth 40000 in
/-- Witness for C8 on a 124-character title with a normal extension. -/
theorem clean_filename_props_witness :
    (splitext (sanitizePart (List.replicate 120 'a' ++ ".mp3".toList))).2
        <:+ clean_filename (List.replicate 120 'a' ++ ".mp3".toList)
    ∧ (clean_filename (List.replicate 120 'a' ++ ".mp3".toList)).length
        ≤ 95 + (splitext (sanitizePart (List.replicate 120 'a' ++ ".mp3".toList))).2.length := by
  have h := clean_filename_props (List.replicate 120 'a' ++ ".mp3".toList)
  exact h.2.2.2 (by decide)

end YtMp3
